import Mathlib

/-!
Verification of the arXiv OAI-PMH scraper (`arxiv_scraper.py`) against its
natural-language specification.  The Python module is shallowly embedded:
strings are Lean `String`s with the relevant `str` methods modelled
character-exactly, XML elements are a finite tree type supporting the
`ElementTree` operations the code uses (`find`, `findall` on one- and
two-component paths, `.text`), and the fetch loop is a recursion over the
finite trace of HTTP responses the server returns, with per-page wall-clock
deltas supplied explicitly.  Exceptions are modelled with `Except`/`Option`
(`Except.error` marks a raised `KeyError`/`AttributeError`/`NameError`), and
the `return 1` sentinel of `Scraper.scrape` is a dedicated result
constructor, distinct from every list-of-records result.
-/

namespace ArxivScraper

/-! ## Python string primitives

`str.lower` is embedded with `Char.toLower` (ASCII case mapping, which covers
the library's behaviour on the ASCII range the spec discusses), `str.strip`
drops leading and trailing whitespace, and `replace "\n" " "` is a
character-wise map because the pattern is a single character. -/

/-- Python `s.lower()`: lowercase every character. -/
def pyLower (s : String) : String := ⟨s.data.map Char.toLower⟩

/-- Python `s.strip()` on the underlying character list. -/
def pyStripList (l : List Char) : List Char :=
  ((l.dropWhile Char.isWhitespace).reverse.dropWhile Char.isWhitespace).reverse

/-- Python `s.strip()`: drop surrounding whitespace. -/
def pyStrip (s : String) : String := ⟨pyStripList s.data⟩

/-- Python `s.replace("\n", " ")`: the pattern is one character, so this is a
character-wise map. -/
def pyReplaceNl (s : String) : String :=
  ⟨s.data.map (fun c => if c = '\n' then ' ' else c)⟩

/-- Python `needle in hay` for strings: contiguous substring test. -/
def pyInStr (needle hay : String) : Bool := decide (needle.data <:+: hay.data)

/-! ## XML elements (`xml.etree.ElementTree` fragment)

The code uses `find` (first direct child with a tag), `findall` on a
single tag and on a two-component path `"a/b"` (all `b` children of all `a`
children, in document order), and `.text` (optional). -/

/-- An XML element: tag, optional text, ordered children. -/
inductive Xml where
  | elem (tag : String) (text : Option String) (children : List Xml)

def Xml.tag : Xml → String
  | .elem t _ _ => t

def Xml.text : Xml → Option String
  | .elem _ tx _ => tx

def Xml.children : Xml → List Xml
  | .elem _ _ cs => cs

/-- Model of `ElementTree.Element.find`: the first direct child with the given tag,
`none` when there is no such child. -/
def Xml.find (x : Xml) (t : String) : Option Xml :=
  x.children.find? (fun c => c.tag == t)

/-- Model of `ElementTree.Element.findall` on a single tag: all direct children with
the given tag, in order. -/
def Xml.findall (x : Xml) (t : String) : List Xml :=
  x.children.filter (fun c => c.tag == t)

/-- Model of `ElementTree.Element.findall` on a two-component path `"a/b"`. -/
def Xml.findallPath2 (x : Xml) (a b : String) : List Xml :=
  (x.findall a).flatMap (fun c => c.findall b)

/-! ## Namespace and endpoint constants (`OAI`, `ARXIV`, `BASE`) -/

def OAI : String := "\x7bhttp://www.openarchives.org/OAI/2.0/\x7d"

def ARXIV : String := "\x7bhttp://arxiv.org/OAI/arXiv/\x7d"

def BASE : String := "http://export.arxiv.org/oai2?verb=ListRecords&"

/-! ## The Record mapper (`class Record`)

`Record.__init__` extracts the fields of one arXiv metadata fragment and
`Record.output` packs them into a dict; all failure is recovered locally,
so the embedding is a total function from the fragment to the dict. -/

/-- The dict produced by `Record.output`. -/
structure RecDict where
  id : String
  url : String
  title : String
  abstract : String
  categories : String
  created : String
  updated : String
  doi : String
  authors : List String
  affiliation : List String
deriving DecidableEq

/-- Model of `Record._get_text`: `self.xml.find(ns+tag).text.strip().lower().replace("\n", " ")`
with a bare `except` returning `""` (covers both a missing child, whose
`find` result is `None`, and a `None` text). -/
def get_text (xml : Xml) (ns tag : String) : String :=
  match xml.find (ns ++ tag) with
  | none => ""
  | some e =>
    match e.text with
    | none => ""
    | some t => pyReplaceNl (pyLower (pyStrip t))

/-- Model of `Record._get_name`: `parent.find(ARXIV+attribute).text.lower()` with a bare
`except` returning `"n/a"`.  Note: only `lower()` is applied, no `strip` and
no newline replacement. -/
def get_name (parent : Xml) (attrName : String) : String :=
  match parent.find (ARXIV ++ attrName) with
  | none => "n/a"
  | some e =>
    match e.text with
    | none => "n/a"
    | some t => pyLower t

/-- The author elements: `self.xml.findall(ARXIV + "authors/" + ARXIV + "author")`. -/
def authorElems (xml : Xml) : List Xml :=
  xml.findallPath2 (ARXIV ++ "authors") (ARXIV ++ "author")

/-- Model of `Record._get_authors`: keyname and forenames lists zipped into
`"<forenames> <keyname>"` strings. -/
def get_authors (xml : Xml) : List String :=
  let authors_xml := authorElems xml
  let last_names := authors_xml.map (fun a => get_name a "keyname")
  let first_names := authors_xml.map (fun a => get_name a "forenames")
  (first_names.zip last_names).map (fun p => p.1 ++ " " ++ p.2)

/-- Model of `Record._get_affiliation`: a list comprehension
`[author.find(ARXIV+"affiliation").text.lower() for author in authors]` under
one `try`, so one failed lookup (missing element or missing text) empties the
whole result. -/
def get_affiliation (xml : Xml) : List String :=
  match (authorElems xml).mapM
      (fun a => (a.find (ARXIV ++ "affiliation")).bind Xml.text) with
  | none => []
  | some texts => texts.map pyLower

/-- Model of `Record.__init__` followed by `Record.output`. -/
def Record.output (xml : Xml) : RecDict :=
  let i := get_text xml ARXIV "id"
  { id := i
    url := "https://arxiv.org/abs/" ++ i
    title := get_text xml ARXIV "title"
    abstract := get_text xml ARXIV "abstract"
    categories := get_text xml ARXIV "categories"
    created := get_text xml ARXIV "created"
    updated := get_text xml ARXIV "updated"
    doi := get_text xml ARXIV "doi"
    authors := get_authors xml
    affiliation := get_affiliation xml }

/-! ## The filter predicate (`Scraper.scrape`, per-record keyword loop)

A record dict value is either a string (the scalar fields) or a list of
strings (`authors`, `affiliation`); Python `word in value` is a substring
test on a string and a membership test on a list. -/

/-- A Python dict value as stored in a record dict. -/
inductive PyVal where
  | str (s : String)
  | list (l : List String)
deriving DecidableEq

/-- Python `needle in v` for the two value shapes. -/
def pyIn (needle : String) : PyVal → Bool
  | .str s => pyInStr needle s
  | .list l => l.contains needle

/-- The record dict as an association list in `Record.output`'s key order. -/
def RecDict.toPairs (r : RecDict) : List (String × PyVal) :=
  [("title", .str r.title), ("id", .str r.id), ("abstract", .str r.abstract),
   ("categories", .str r.categories), ("doi", .str r.doi),
   ("created", .str r.created), ("updated", .str r.updated),
   ("authors", .list r.authors), ("affiliation", .list r.affiliation),
   ("url", .str r.url)]

/-- The inner loop `for word in self.filters[key]`: `record[key]` is looked up
for each word, so a key that is absent from the record raises `KeyError`
(modelled as `Except.error ()`) on the first word, but a key with an empty
word list never performs the lookup. -/
def wordsStep (recd : List (String × PyVal)) (key : String) :
    Bool → List String → Except Unit Bool
  | save, [] => Except.ok save
  | save, w :: ws =>
    match recd.lookup key with
    | some v => wordsStep recd key (save || pyIn (pyLower w) v) ws
    | none => Except.error ()

/-- The outer loop `for key in self.keys`, threading `save_record` through
every configured (key, words) pair; a raised `KeyError` aborts it. -/
def saveLoop (recd : List (String × PyVal)) :
    Bool → List (String × List String) → Except Unit Bool
  | save, [] => Except.ok save
  | save, kw :: kws =>
    match wordsStep recd kw.1 save kw.2 with
    | Except.ok s => saveLoop recd s kws
    | Except.error e => Except.error e

/-- The keyword loop started from `save_record = False`. -/
def savePredicate (filters : List (String × List String))
    (recd : List (String × PyVal)) : Except Unit Bool :=
  saveLoop recd false filters

/-- The retention decision for one record: `append_all` (set in `__init__`
from the emptiness of `filters`) short-circuits the keyword loop. -/
def keepRecord (filters : List (String × List String))
    (recd : List (String × PyVal)) : Except Unit Bool :=
  if filters.isEmpty then Except.ok true else savePredicate filters recd

/-! ## `Scraper.__init__` -/

/-- The configuration stored by `Scraper.__init__` (`append_all` is
`filters.isEmpty` and is left implicit). -/
structure Scraper where
  cat : String
  t : Nat
  timeout : Nat
  f : String
  u : String
  url : String
  filters : List (String × List String)
deriving DecidableEq

/-- The initial query URL built in `Scraper.__init__`. -/
def initialUrl (f u cat : String) : String :=
  BASE ++ "from=" ++ f ++ "&until=" ++ u ++ "&metadataPrefix=arXiv&set=" ++ cat

/-- Model of `Scraper.__init__`.  The local variable `yesterday` is bound only in the
`date_from is None` branch; the `date_until is None` branch reads it, so the
combination (`date_from` supplied, `date_until` omitted) raises
`UnboundLocalError` (`Except.error ()`).  `yesterday` abstracts
`str(datetime.date.today() - datetime.timedelta(days=1))`. -/
def Scraper.init (yesterday : String) (category : String)
    (date_from date_until : Option String) (t : Nat) (timeout : Nat)
    (filters : List (String × List String)) : Except Unit Scraper :=
  let f := match date_from with
    | none => yesterday
    | some d => d
  match date_until with
  | some d =>
    Except.ok
      { cat := category, t := t, timeout := timeout, f := f, u := d,
        url := initialUrl f d category, filters := filters }
  | none =>
    match date_from with
    | none =>
      Except.ok
        { cat := category, t := t, timeout := timeout, f := f, u := yesterday,
          url := initialUrl f yesterday category, filters := filters }
    | some _ => Except.error ()

/-! ## `Scraper.scrape`

The loop is driven by the finite trace of HTTP responses the server will
return, one per `urlopen` call: `HttpResp.ok` carries the parsed XML root,
`HttpResp.err` an HTTP status code together with the optional `Retry-After`
header the code reads (into the unused local `to`) but never sleeps on.
Each trace entry also carries the wall-clock seconds `time.time()` advances
by when that response is processed (`ty - tx` for a successful page; the
value is ignored in the 503 branch, where the code `continue`s before
reading the clock).  The outcome distinguishes a normal record list, the
bare-`1` sentinel (`return 1`), a re-raised HTTP error, and an uncaught
in-loop exception; `outOfResponses` marks a trace too short for the run and
corresponds to no program behaviour. -/

/-- One HTTP exchange as seen by `urlopen` inside the loop. -/
inductive HttpResp where
  | ok (root : Xml)
  | err (code : Nat) (retryAfter : Option Nat)

/-- The result of `Scraper.scrape`. -/
inductive ScrapeResult where
  | records (ds : List RecDict)
  | sentinel
  | httpError (code : Nat)
  | crashed
  | outOfResponses (ds : List RecDict) (url : String) (elapsed : Nat)
deriving DecidableEq

/-- A scrape outcome together with the list of sleeps (in seconds) the loop
performed, in order. -/
structure ScrapeOut where
  res : ScrapeResult
  sleeps : List Nat
deriving DecidableEq

/-- The per-record body of the page loop: descend `metadata` / `arXiv`
(either missing raises an uncaught `AttributeError`), build the record dict,
and append it when retained (`KeyError` from the keyword loop is likewise
uncaught). -/
def processRecord (filters : List (String × List String))
    (ds : List RecDict) (recordElem : Xml) : Except Unit (List RecDict) :=
  match recordElem.find (OAI ++ "metadata") with
  | none => Except.error ()
  | some m =>
    match m.find (ARXIV ++ "arXiv") with
    | none => Except.error ()
    | some meta =>
      match keepRecord filters (Record.output meta).toPairs with
      | Except.error e => Except.error e
      | Except.ok true => Except.ok (ds ++ [Record.output meta])
      | Except.ok false => Except.ok ds

/-- The page loop `for record in records: ...` over one page. -/
def processRecords (filters : List (String × List String)) :
    List Xml → List RecDict → Except Unit (List RecDict)
  | [], ds => Except.ok ds
  | r :: rs, ds =>
    match processRecord filters ds r with
    | Except.ok ds' => processRecords filters rs ds'
    | Except.error e => Except.error e

/-- The `while True` loop of `Scraper.scrape`, recursing over the response
trace.  State: current URL, accumulated records `ds`, accumulated `elapsed`
seconds. -/
def scrapeLoop (cfg : Scraper) :
    List (HttpResp × Nat) → String → List RecDict → Nat → ScrapeOut
  | [], url, ds, elapsed => ⟨.outOfResponses ds url elapsed, []⟩
  | (resp, dt) :: rest, url, ds, elapsed =>
    match resp with
    | .err code _ =>
      if code = 503 then
        let out := scrapeLoop cfg rest url ds elapsed
        ⟨out.res, cfg.t :: out.sleeps⟩
      else ⟨.httpError code, []⟩
    | .ok root =>
      match processRecords cfg.filters
          (root.findallPath2 (OAI ++ "ListRecords") (OAI ++ "record")) ds with
      | Except.error _ => ⟨.crashed, []⟩
      | Except.ok ds' =>
        match root.find (OAI ++ "ListRecords") with
        | none => ⟨.sentinel, []⟩
        | some lr =>
          match lr.find (OAI ++ "resumptionToken") with
          | none => ⟨.records ds', []⟩
          | some token =>
            match token.text with
            | none => ⟨.records ds', []⟩
            | some txt =>
              let url' := BASE ++ "resumptionToken=" ++ txt
              let elapsed' := elapsed + dt
              if elapsed' ≥ cfg.timeout then ⟨.records ds', []⟩
              else scrapeLoop cfg rest url' ds' elapsed'

/-- Entry point `Scraper.scrape` started from the configured URL with an empty
accumulator and zero elapsed time. -/
def Scraper.scrape (cfg : Scraper) (responses : List (HttpResp × Nat)) : ScrapeOut :=
  scrapeLoop cfg responses cfg.url [] 0

/-! ## `generate_html`

The real function also computes the display date from the wall clock and
writes the fragment to a file; the embedding takes the formatted date as a
parameter and returns the fragment string. -/

/-- Python `", ".join(l)`. -/
def joinComma (l : List String) : String := String.intercalate ", " l

/-- The heading block built before the record loop. -/
def htmlHeader (formatted_date : String) : String :=
  "\n    <div id=\"div_diffusion_papers_list\" class=\"list-papers\">\n    <div class=\"date-papers\">\n    <h6><b>" ++
    formatted_date ++ "</b></h6>\n    "

/-- The paragraph appended for one record. -/
def recordHtml (r : RecDict) : String :=
  "\n        <p><a href=\x27" ++ r.url ++ "\x27 target=\x27_blank\x27>" ++
    r.title ++ "</a><br>\n        " ++ joinComma r.authors ++ "\n        </p>\n        "

/-- Model of `generate_html`, as the fragment string it writes. -/
def generate_html (records : List RecDict) (formatted_date : String) : String :=
  htmlHeader formatted_date ++ String.join (records.map recordHtml) ++ "</div></div>"

/-! ## Normalization predicates

The spec's "normalized" means: no surrounding whitespace, lowercase, no
internal newline.  These are semantic predicates on the produced string, not
restatements of the extraction pipeline. -/

/-- No leading or trailing whitespace character. -/
def NoEdgeWs (s : String) : Prop :=
  (∀ c, s.data.head? = some c → c.isWhitespace = false) ∧
  (∀ c, s.data.getLast? = some c → c.isWhitespace = false)

/-- Lowercasing the string leaves it unchanged. -/
def Lowercased (s : String) : Prop := pyLower s = s

/-- The string contains no newline character. -/
def NoNewline (s : String) : Prop := ∀ c ∈ s.data, c ≠ '\n'

/-- Fully normalized in the sense of the spec. -/
def Normalized (s : String) : Prop := NoEdgeWs s ∧ Lowercased s ∧ NoNewline s

/-- The spec's "substring occurs case-insensitively within the value":
compare with both sides lowercased. -/
def occursCI (needle hay : String) : Bool := pyInStr (pyLower needle) (pyLower hay)

/-- The boolean the keyword loop folds `save_record` to, when every lookup
it performs succeeds. -/
def matchesB (filters : List (String × List String))
    (recd : List (String × PyVal)) : Bool :=
  filters.any (fun kw => kw.2.any (fun w =>
    match recd.lookup kw.1 with
    | some v => pyIn (pyLower w) v
    | none => false))

/-! ## Concrete fixtures -/

/-- A scraper configuration as `__main__` builds one (dates written out). -/
def sampleScraper : Scraper :=
  { cat := "cs", t := 30, timeout := 300, f := "2026-10-10", u := "2026-10-11",
    url := initialUrl "2026-10-10" "2026-10-11" "cs", filters := [] }

/-- A metadata fragment with a title and an id. -/
def metaX : Xml :=
  .elem (ARXIV ++ "arXiv") none
    [.elem (ARXIV ++ "title") (some "A Study of X") [],
     .elem (ARXIV ++ "id") (some "1234.5678") []]

/-- An OAI `record` element wrapping `metaX`. -/
def recordX : Xml :=
  .elem (OAI ++ "record") none [.elem (OAI ++ "metadata") none [metaX]]

/-- A page whose `ListRecords` holds one record and a non-empty
resumption token. -/
def pageWithToken : Xml :=
  .elem "root" none
    [.elem (OAI ++ "ListRecords") none
      [recordX, .elem (OAI ++ "resumptionToken") (some "tok123") []]]

/-- A malformed page: no `ListRecords` container at all. -/
def malformedRoot : Xml := .elem "root" none []

/-- An author element lacking forenames and affiliation. -/
def author1 : Xml :=
  .elem (ARXIV ++ "author") none [.elem (ARXIV ++ "keyname") (some "Doe") []]

/-- An author element whose forenames carry surrounding whitespace and an
internal newline. -/
def author2 : Xml :=
  .elem (ARXIV ++ "author") none
    [.elem (ARXIV ++ "keyname") (some "Roe") [],
     .elem (ARXIV ++ "forenames") (some " Jane\nQ ") []]

/-- A metadata fragment with the two authors above; neither declares an
affiliation. -/
def authorsMeta : Xml :=
  .elem (ARXIV ++ "arXiv") none
    [.elem (ARXIV ++ "authors") none [author1, author2]]

/-- A metadata fragment whose abstract and title both match keyword filters. -/
def multiMeta : Xml :=
  .elem (ARXIV ++ "arXiv") none
    [.elem (ARXIV ++ "title") (some "Model Study") [],
     .elem (ARXIV ++ "abstract") (some "a diffusion model") []]

/-- An OAI `record` element wrapping `multiMeta`. -/
def multiRecord : Xml :=
  .elem (OAI ++ "record") none [.elem (OAI ++ "metadata") none [multiMeta]]

/-- A filter configuration in which two distinct pairs match `multiMeta`. -/
def multiFilters : List (String × List String) :=
  [("abstract", ["diffusion"]), ("title", ["model"])]

/-! ## Character-level lemmas about `Char.toLower` -/

theorem char_toNat_ofNat_small {n : Nat} (h : n < 0xd800) :
    (Char.ofNat n).toNat = n := by
  have hv : n.isValidChar := Or.inl h
  rw [Char.ofNat, dif_pos hv]
  rfl

theorem toLower_toNat (c : Char) :
    c.toLower.toNat = if 65 ≤ c.toNat ∧ c.toNat ≤ 90 then c.toNat + 32 else c.toNat := by
  rw [Char.toLower]
  split
  · next h =>
    rw [char_toNat_ofNat_small (by omega)]
  · next h =>
    rfl

theorem toNat_inj_char {a b : Char} (h : a.toNat = b.toNat) : a = b := by
  apply Char.ext
  exact UInt32.toNat.inj h

theorem toLower_toLower (c : Char) : c.toLower.toLower = c.toLower := by
  have h1 := toLower_toNat c
  have h2 := toLower_toNat c.toLower
  apply toNat_inj_char
  by_cases h : 65 ≤ c.toNat ∧ c.toNat ≤ 90
  · rw [if_pos h] at h1
    rw [h2, if_neg (by omega)]
  · rw [if_neg h] at h1
    rw [h2, h1, if_neg h]

theorem isWhitespace_iff_toNat (c : Char) :
    c.isWhitespace = true ↔ (c.toNat = 32 ∨ c.toNat = 9 ∨ c.toNat = 13 ∨ c.toNat = 10) := by
  constructor
  · intro h
    rw [Char.isWhitespace] at h
    simp only [Bool.or_eq_true, decide_eq_true_eq] at h
    rcases h with ((h | h) | h) | h <;> subst h <;> simp [Char.toNat]
  · intro h
    rw [Char.isWhitespace]
    simp only [Bool.or_eq_true, decide_eq_true_eq]
    rcases h with h | h | h | h
    · exact Or.inl (Or.inl (Or.inl (toNat_inj_char h)))
    · exact Or.inl (Or.inl (Or.inr (toNat_inj_char h)))
    · exact Or.inl (Or.inr (toNat_inj_char h))
    · exact Or.inr (toNat_inj_char h)

theorem isWhitespace_toLower (c : Char) :
    c.toLower.isWhitespace = c.isWhitespace := by
  have h1 := toLower_toNat c
  by_cases h : 65 ≤ c.toNat ∧ c.toNat ≤ 90
  · rw [if_pos h] at h1
    have hc : c.isWhitespace = false := by
      by_contra hw
      have := (isWhitespace_iff_toNat c).mp (by revert hw; cases c.isWhitespace <;> simp)
      omega
    have hcl : c.toLower.isWhitespace = false := by
      by_contra hw
      have := (isWhitespace_iff_toNat c.toLower).mp
        (by revert hw; cases c.toLower.isWhitespace <;> simp)
      omega
    rw [hc, hcl]
  · rw [if_neg h] at h1
    have : c.toLower = c := toNat_inj_char h1
    rw [this]

theorem toLower_ne_newline {c : Char} (h : c ≠ '\n') : c.toLower ≠ '\n' := by
  intro hl
  apply h
  have h1 := toLower_toNat c
  rw [hl] at h1
  by_cases hr : 65 ≤ c.toNat ∧ c.toNat ≤ 90
  · rw [if_pos hr] at h1
    have : ('\n' : Char).toNat = 10 := by simp [Char.toNat]
    omega
  · rw [if_neg hr] at h1
    exact toNat_inj_char h1.symm

/-! ## Helper lemmas -/

theorem isWhitespace_nlChar (c : Char) :
    (if c = '\n' then ' ' else c).isWhitespace = c.isWhitespace := by
  by_cases h : c = '\n'
  · subst h; decide
  · rw [if_neg h]

theorem toLower_nl_toLower (c : Char) :
    (if c.toLower = '\n' then ' ' else c.toLower).toLower
      = if c.toLower = '\n' then ' ' else c.toLower := by
  by_cases h : c.toLower = '\n'
  · simp only [if_pos h]; decide
  · simp only [if_neg h]; exact toLower_toLower c

theorem head?_dropWhile_not {p : α → Bool} :
    ∀ {l : List α} {a : α}, (l.dropWhile p).head? = some a → p a = false := by
  intro l
  induction l with
  | nil => intro a h; simp at h
  | cons x xs ih =>
    intro a h
    rw [List.dropWhile_cons] at h
    by_cases hp : p x = true
    · rw [if_pos hp] at h
      exact ih h
    · rw [if_neg hp] at h
      simp only [List.head?_cons, Option.some.injEq] at h
      subst h
      exact Bool.not_eq_true _ |>.mp hp

theorem getLast?_dropWhile {p : α → Bool} :
    ∀ {l : List α}, l.dropWhile p ≠ [] → (l.dropWhile p).getLast? = l.getLast? := by
  intro l
  induction l with
  | nil => intro h; simp at h
  | cons x xs ih =>
    intro h
    rw [List.dropWhile_cons]
    by_cases hp : p x = true
    · rw [List.dropWhile_cons, if_pos hp] at h
      have hxs : xs ≠ [] := by
        intro hx; subst hx; simp at h
      rw [if_pos hp, ih h, List.getLast?_cons]
      cases hxl : xs.getLast? with
      | none => exact absurd (List.getLast?_eq_none_iff.mp hxl) hxs
      | some b => rfl
    · rw [if_neg hp]

theorem pyStripList_head_not_ws {l : List Char} {c : Char}
    (h : (pyStripList l).head? = some c) : c.isWhitespace = false := by
  rw [pyStripList, List.head?_reverse] at h
  have hne : (l.dropWhile Char.isWhitespace).reverse.dropWhile Char.isWhitespace ≠ [] := by
    intro hq; rw [hq] at h; simp at h
  rw [getLast?_dropWhile hne, List.getLast?_reverse] at h
  exact head?_dropWhile_not h

theorem pyStripList_getLast_not_ws {l : List Char} {c : Char}
    (h : (pyStripList l).getLast? = some c) : c.isWhitespace = false := by
  rw [pyStripList, List.getLast?_reverse] at h
  exact head?_dropWhile_not h

/-- Zipping two maps over the same list and rejoining is a single map. -/
theorem zip_map_same (f g : α → β) (h : β → β → γ) :
    ∀ l : List α, ((l.map f).zip (l.map g)).map (fun p => h p.1 p.2)
      = l.map (fun a => h (f a) (g a)) := by
  intro l
  induction l with
  | nil => rfl
  | cons x xs ih => simp only [List.map_cons, List.zip_cons_cons, ih]

/-- A single `none` in the list makes `mapM` over `Option` fail. -/
theorem mapM_eq_none_of_mem {f : α → Option β} :
    ∀ {l : List α} {a : α}, a ∈ l → f a = none → l.mapM f = none := by
  intro l
  induction l with
  | nil => intro a h; simp at h
  | cons x xs ih =>
    intro a h hf
    rw [List.mapM_cons]
    rcases List.mem_cons.mp h with h | h
    · subst h; rw [hf]; rfl
    · cases hx : f x with
      | none => rfl
      | some b => simp only [hx, Option.bind_eq_bind, Option.some_bind, ih h hf]; rfl

theorem find_none_findall_nil {x : Xml} {t : String} (h : x.find t = none) :
    x.findall t = [] := by
  rw [Xml.find, List.find?_eq_none] at h
  rw [Xml.findall, List.filter_eq_nil_iff]
  exact h

theorem findallPath2_nil_of_find_none {x : Xml} {a b : String}
    (h : x.find a = none) : x.findallPath2 a b = [] := by
  rw [Xml.findallPath2, find_none_findall_nil h]
  rfl

/-! ## Normalization lemmas -/

theorem pipeline_data (t : String) :
    (pyReplaceNl (pyLower (pyStrip t))).data
      = ((pyStripList t.data).map Char.toLower).map
          (fun c => if c = '\n' then ' ' else c) := rfl

theorem lowercased_iff_data (s : String) :
    Lowercased s ↔ s.data.map Char.toLower = s.data := by
  constructor
  · intro h
    exact congrArg String.data h
  · intro h
    show String.mk (s.data.map Char.toLower) = s
    rw [h]

theorem noEdgeWs_pipeline (t : String) :
    NoEdgeWs (pyReplaceNl (pyLower (pyStrip t))) := by
  constructor
  · intro c hc
    rw [pipeline_data, List.head?_map, List.head?_map] at hc
    cases hh : (pyStripList t.data).head? with
    | none => rw [hh] at hc; simp at hc
    | some a =>
      rw [hh] at hc
      simp only [Option.map_some'] at hc
      cases hc
      rw [isWhitespace_nlChar, isWhitespace_toLower]
      exact pyStripList_head_not_ws hh
  · intro c hc
    rw [pipeline_data, List.getLast?_map, List.getLast?_map] at hc
    cases hh : (pyStripList t.data).getLast? with
    | none => rw [hh] at hc; simp at hc
    | some a =>
      rw [hh] at hc
      simp only [Option.map_some'] at hc
      cases hc
      rw [isWhitespace_nlChar, isWhitespace_toLower]
      exact pyStripList_getLast_not_ws hh

theorem lowercased_pyReplaceNl_pyLower (s : String) :
    Lowercased (pyReplaceNl (pyLower s)) := by
  rw [lowercased_iff_data]
  show (((s.data.map Char.toLower).map (fun c => if c = '\n' then ' ' else c)).map
      Char.toLower)
    = ((s.data.map Char.toLower).map (fun c => if c = '\n' then ' ' else c))
  rw [List.map_map, List.map_map, List.map_map]
  apply List.map_congr_left
  intro a _
  exact toLower_nl_toLower a

theorem noNewline_pyReplaceNl (s : String) : NoNewline (pyReplaceNl s) := by
  intro c hc
  rcases List.mem_map.mp hc with ⟨x, _, rfl⟩
  by_cases h : x = '\n'
  · rw [if_pos h]; decide
  · rw [if_neg h]; exact h

theorem normalized_empty : Normalized "" := by
  refine ⟨⟨?_, ?_⟩, ?_, ?_⟩
  · intro c hc; simp at hc
  · intro c hc; simp at hc
  · rfl
  · intro c hc; simp at hc

theorem normalized_pipeline (t : String) :
    Normalized (pyReplaceNl (pyLower (pyStrip t))) :=
  ⟨noEdgeWs_pipeline t, lowercased_pyReplaceNl_pyLower (pyStrip t),
   noNewline_pyReplaceNl (pyLower (pyStrip t))⟩

theorem normalized_get_text (xml : Xml) (ns tag : String) :
    Normalized (get_text xml ns tag) := by
  rw [get_text]
  split
  · exact normalized_empty
  · split
    · exact normalized_empty
    · exact normalized_pipeline _

theorem lowercased_pyLower (t : String) : Lowercased (pyLower t) := by
  rw [lowercased_iff_data]
  show (t.data.map Char.toLower).map Char.toLower = _
  rw [List.map_map]
  apply List.map_congr_left
  intro a _
  exact toLower_toLower a

theorem lowercased_append {s t : String} (hs : Lowercased s) (ht : Lowercased t) :
    Lowercased (s ++ t) := by
  rw [lowercased_iff_data] at *
  rw [String.data_append, List.map_append, hs, ht]

theorem lowercased_get_name (a : Xml) (attrName : String) :
    Lowercased (get_name a attrName) := by
  rw [get_name]
  split
  · show pyLower "n/a" = "n/a"
    decide
  · split
    · show pyLower "n/a" = "n/a"
      decide
    · exact lowercased_pyLower _

/-! ## Filter predicate lemmas -/

theorem foldl_or (p : α → Bool) :
    ∀ (l : List α) (s : Bool), l.foldl (fun b a => b || p a) s = (s || l.any p) := by
  intro l
  induction l with
  | nil => intro s; simp
  | cons x xs ih =>
    intro s
    rw [List.foldl_cons, ih, List.any_cons, Bool.or_assoc]

theorem wordsStep_some {recd : List (String × PyVal)} {key : String} {v : PyVal}
    (h : recd.lookup key = some v) (s : Bool) (words : List String) :
    wordsStep recd key s words
      = Except.ok (s || words.any (fun w => pyIn (pyLower w) v)) := by
  induction words generalizing s with
  | nil => simp [wordsStep]
  | cons w ws ih =>
    rw [wordsStep, h]
    show wordsStep recd key (s || pyIn (pyLower w) v) ws = _
    rw [ih, List.any_cons, Bool.or_assoc]

theorem wordsStep_none {recd : List (String × PyVal)} {key : String}
    (h : recd.lookup key = none) (s : Bool) {words : List String}
    (hw : words ≠ []) : wordsStep recd key s words = Except.error () := by
  cases words with
  | nil => exact absurd rfl hw
  | cons w ws => rw [wordsStep, h]

theorem wordsStep_nil (recd : List (String × PyVal)) (key : String) (s : Bool) :
    wordsStep recd key s [] = Except.ok s := rfl

/-- Generalized-accumulator form of the outer loop, under the hypothesis
that every configured key with a non-empty word list is present. -/
theorem saveLoop_ok {recd : List (String × PyVal)} :
    ∀ {filters : List (String × List String)},
    (∀ kw ∈ filters, kw.2 ≠ [] → (recd.lookup kw.1).isSome) →
    ∀ s : Bool, saveLoop recd s filters = Except.ok (s || matchesB filters recd) := by
  intro filters
  induction filters with
  | nil => intro _ s; simp [saveLoop, matchesB]
  | cons kw kws ih =>
    intro hpres s
    have hmatch : matchesB (kw :: kws) recd
        = ((kw.2.any (fun w =>
            match recd.lookup kw.1 with
            | some v => pyIn (pyLower w) v
            | none => false)) || matchesB kws recd) := by
      simp only [matchesB, List.any_cons]
    by_cases hw : kw.2 = []
    · rw [saveLoop, hw, wordsStep_nil]
      show saveLoop recd s kws = _
      rw [ih (fun k hk => hpres k (List.mem_cons_of_mem _ hk)) s, hmatch, hw]
      simp
    · have hsome := hpres kw (List.mem_cons_self _ _) hw
      cases hv : recd.lookup kw.1 with
      | none => rw [hv] at hsome; simp at hsome
      | some v =>
        rw [saveLoop, wordsStep_some hv]
        show saveLoop recd (s || kw.2.any fun w => pyIn (pyLower w) v) kws = _
        rw [ih (fun k hk => hpres k (List.mem_cons_of_mem _ hk)), hmatch, hv,
          Bool.or_assoc]

/-- The predicate `savePredicate` under the same presence hypothesis. -/
theorem savePredicate_ok {recd : List (String × PyVal)}
    {filters : List (String × List String)}
    (hpres : ∀ kw ∈ filters, kw.2 ≠ [] → (recd.lookup kw.1).isSome) :
    savePredicate filters recd = Except.ok (matchesB filters recd) := by
  rw [savePredicate, saveLoop_ok hpres, Bool.false_or]

/-- A configured key with a non-empty word list and no record entry makes
the whole keyword loop raise (`KeyError`), whatever came before it. -/
theorem saveLoop_error {recd : List (String × PyVal)} :
    ∀ {filters : List (String × List String)},
    (∃ kw ∈ filters, kw.2 ≠ [] ∧ recd.lookup kw.1 = none) →
    ∀ s : Bool, saveLoop recd s filters = Except.error () := by
  intro filters
  induction filters with
  | nil => intro h; simp at h
  | cons kw kws ih =>
    intro h s
    rcases h with ⟨k, hk, hkw, hnone⟩
    rcases List.mem_cons.mp hk with rfl | hmem
    · rw [saveLoop, wordsStep_none hnone s hkw]
    · cases hws : wordsStep recd kw.1 s kw.2 with
      | error e => rw [saveLoop, hws]
      | ok s' =>
        rw [saveLoop, hws]
        show saveLoop recd s' kws = _
        exact ih ⟨k, hmem, hkw, hnone⟩ s'

theorem lowercased_space : Lowercased " " := by
  show pyLower " " = " "
  decide

/-- Equation: `Record._get_authors` as a single map over the author elements (the
paired forename/keyname lists are built over the same element list). -/
theorem get_authors_eq_map (xml : Xml) :
    get_authors xml = (authorElems xml).map
      (fun a => get_name a "forenames" ++ " " ++ get_name a "keyname") := by
  show ((((authorElems xml).map (fun a => get_name a "forenames")).zip
      ((authorElems xml).map (fun a => get_name a "keyname"))).map
      (fun p => p.1 ++ " " ++ p.2))
    = (authorElems xml).map
        (fun a => get_name a "forenames" ++ " " ++ get_name a "keyname")
  exact zip_map_same (fun a => get_name a "forenames")
    (fun a => get_name a "keyname") (fun x y => x ++ " " ++ y) (authorElems xml)

/-- The boolean `matchesB` restated as the spec's existential, for records whose
configured fields hold lowercase string values. -/
theorem matchesB_iff {filters : List (String × List String)}
    {recd : List (String × PyVal)}
    (hpres : ∀ kw ∈ filters, kw.2 ≠ [] →
      ∃ v : String, recd.lookup kw.1 = some (.str v) ∧ pyLower v = v) :
    matchesB filters recd = true ↔
      ∃ kw ∈ filters, ∃ w ∈ kw.2, ∃ v : String,
        recd.lookup kw.1 = some (.str v) ∧ occursCI w v = true := by
  rw [matchesB, List.any_eq_true]
  constructor
  · rintro ⟨kw, hkw, hany⟩
    rw [List.any_eq_true] at hany
    rcases hany with ⟨w, hw, hmatch⟩
    rcases hpres kw hkw (List.ne_nil_of_mem hw) with ⟨v, hv, hlow⟩
    refine ⟨kw, hkw, w, hw, v, hv, ?_⟩
    rw [hv] at hmatch
    have hmatch2 : pyIn (pyLower w) (.str v) = true := hmatch
    rw [occursCI, hlow]
    exact hmatch2
  · rintro ⟨kw, hkw, w, hw, v, hv, hocc⟩
    refine ⟨kw, hkw, ?_⟩
    rw [List.any_eq_true]
    refine ⟨w, hw, ?_⟩
    rw [hv]
    show pyIn (pyLower w) (.str v) = true
    rcases hpres kw hkw (List.ne_nil_of_mem hw) with ⟨v2, hv2, hlow2⟩
    rw [hv] at hv2
    have hvv : v2 = v := by
      injection hv2 with h
      injection h.symm
    subst hvv
    show pyInStr (pyLower w) v2 = true
    rw [← hlow2]
    rw [occursCI] at hocc
    exact hocc

/-! ## Claims -/

/-- Claim C1: for every fetched page whose parsed XML lacks a `ListRecords`
container at the point the resumption token is looked up, the scrape loop
terminates and signals failure with the distinct sentinel (`return 1`,
embedded as `ScrapeResult.sentinel`) instead of raising, an outcome
distinct from every normal record-list result — in particular from the
empty list. -/
theorem C1_malformed_page_sentinel (cfg : Scraper) (root : Xml) (dt : Nat)
    (rest : List (HttpResp × Nat)) (url : String) (ds : List RecDict)
    (elapsed : Nat) (h : root.find (OAI ++ "ListRecords") = none) :
    scrapeLoop cfg ((.ok root, dt) :: rest) url ds elapsed = ⟨.sentinel, []⟩
      ∧ ∀ l : List RecDict, (ScrapeResult.sentinel : ScrapeResult) ≠ .records l := by
  constructor
  · rw [scrapeLoop, findallPath2_nil_of_find_none h]
    show (match root.find (OAI ++ "ListRecords") with
      | none => (⟨.sentinel, []⟩ : ScrapeOut)
      | some lr =>
        match lr.find (OAI ++ "resumptionToken") with
        | none => ⟨.records ds, []⟩
        | some token =>
          match token.text with
          | none => ⟨.records ds, []⟩
          | some txt =>
            if elapsed + dt ≥ cfg.timeout then ⟨.records ds, []⟩
            else scrapeLoop cfg rest (BASE ++ "resumptionToken=" ++ txt) ds
              (elapsed + dt)) = ⟨.sentinel, []⟩
    rw [h]
  · intro l hcontra
    exact ScrapeResult.noConfusion hcontra

/-- Claim C1 witness: a concrete malformed page. -/
theorem C1_witness :
    scrapeLoop sampleScraper [(.ok malformedRoot, 1)] sampleScraper.url [] 0
      = ⟨.sentinel, []⟩ :=
  (C1_malformed_page_sentinel sampleScraper malformedRoot 1 [] sampleScraper.url
    [] 0 rfl).1

/-- Claim C2: a 503 response makes the loop sleep exactly the configured
retry delay `cfg.t` (whatever `Retry-After` the server sent) and re-enter
with the identical URL, accumulator and elapsed time; any other failing
status aborts the scrape with an `httpError` carrying no partial records. -/
theorem C2_http_error_handling (cfg : Scraper) (ra : Option Nat) (dt : Nat)
    (rest : List (HttpResp × Nat)) (url : String) (ds : List RecDict)
    (elapsed : Nat) :
    (scrapeLoop cfg ((.err 503 ra, dt) :: rest) url ds elapsed
      = ⟨(scrapeLoop cfg rest url ds elapsed).res,
         cfg.t :: (scrapeLoop cfg rest url ds elapsed).sleeps⟩)
    ∧ ∀ code : Nat, code ≠ 503 →
        scrapeLoop cfg ((.err code ra, dt) :: rest) url ds elapsed
          = ⟨.httpError code, []⟩ := by
  constructor
  · rw [scrapeLoop, if_pos rfl]
  · intro code hc
    rw [scrapeLoop, if_neg hc]

/-- Claim C2 witness: a concrete 404 aborts with no partial result. -/
theorem C2_witness :
    scrapeLoop sampleScraper [(.err 404 (some 7), 1)] sampleScraper.url [] 0
      = ⟨.httpError 404, []⟩ :=
  (C2_http_error_handling sampleScraper (some 7) 1 [] sampleScraper.url [] 0).2
    404 (by decide)

/-- Claim C3: elapsed time is accumulated only at successful-page
boundaries — the 503 branch re-enters the loop with elapsed unchanged — and
when, after a successful page (records appended, next token present), the
accumulated elapsed time meets or exceeds the budget, the loop returns the
records gathered so far as an ordinary result. -/
theorem C3_time_budget (cfg : Scraper) (root : Xml) (dt : Nat)
    (rest : List (HttpResp × Nat)) (url : String) (ds ds' : List RecDict)
    (elapsed : Nat) (lr token : Xml) (txt : String)
    (hp : processRecords cfg.filters
      (root.findallPath2 (OAI ++ "ListRecords") (OAI ++ "record")) ds
        = Except.ok ds')
    (hlr : root.find (OAI ++ "ListRecords") = some lr)
    (htok : lr.find (OAI ++ "resumptionToken") = some token)
    (htxt : token.text = some txt)
    (hto : elapsed + dt ≥ cfg.timeout) :
    scrapeLoop cfg ((.ok root, dt) :: rest) url ds elapsed = ⟨.records ds', []⟩
      ∧ ∀ (ra : Option Nat) (dt2 : Nat),
          (scrapeLoop cfg ((.err 503 ra, dt2) :: rest) url ds elapsed).res
            = (scrapeLoop cfg rest url ds elapsed).res := by
  constructor
  · rw [scrapeLoop, hp]
    show (match root.find (OAI ++ "ListRecords") with
      | none => (⟨.sentinel, []⟩ : ScrapeOut)
      | some lr =>
        match lr.find (OAI ++ "resumptionToken") with
        | none => ⟨.records ds', []⟩
        | some token =>
          match token.text with
          | none => ⟨.records ds', []⟩
          | some txt =>
            if elapsed + dt ≥ cfg.timeout then ⟨.records ds', []⟩
            else scrapeLoop cfg rest (BASE ++ "resumptionToken=" ++ txt) ds'
              (elapsed + dt)) = ⟨.records ds', []⟩
    rw [hlr]
    show (match lr.find (OAI ++ "resumptionToken") with
      | none => (⟨.records ds', []⟩ : ScrapeOut)
      | some token =>
        match token.text with
        | none => ⟨.records ds', []⟩
        | some txt =>
          if elapsed + dt ≥ cfg.timeout then ⟨.records ds', []⟩
          else scrapeLoop cfg rest (BASE ++ "resumptionToken=" ++ txt) ds'
            (elapsed + dt)) = ⟨.records ds', []⟩
    rw [htok]
    show (match token.text with
      | none => (⟨.records ds', []⟩ : ScrapeOut)
      | some txt =>
        if elapsed + dt ≥ cfg.timeout then ⟨.records ds', []⟩
        else scrapeLoop cfg rest (BASE ++ "resumptionToken=" ++ txt) ds'
          (elapsed + dt)) = ⟨.records ds', []⟩
    rw [htxt]
    show (if elapsed + dt ≥ cfg.timeout then (⟨.records ds', []⟩ : ScrapeOut)
      else scrapeLoop cfg rest (BASE ++ "resumptionToken=" ++ txt) ds'
        (elapsed + dt)) = ⟨.records ds', []⟩
    rw [if_pos hto]
  · intro ra dt2
    rw [scrapeLoop, if_pos rfl]

/-- Claim C3 witness: one successful page with a pending token and a page
duration exceeding the budget returns the page's records normally. -/
theorem C3_witness :
    scrapeLoop sampleScraper [(.ok pageWithToken, 400)] sampleScraper.url [] 0
      = ⟨.records [Record.output metaX], []⟩ :=
  (C3_time_budget sampleScraper pageWithToken 400 [] sampleScraper.url []
    [Record.output metaX] 0
    (.elem (OAI ++ "ListRecords") none
      [recordX, .elem (OAI ++ "resumptionToken") (some "tok123") []])
    (.elem (OAI ++ "resumptionToken") (some "tok123") []) "tok123"
    rfl rfl rfl rfl (by decide)).1

/-- Claim C4: a record is retained exactly when the filter configuration is
empty or some configured (field, substring) pair matches the record's value
for that field case-insensitively.  The hypotheses state the claim's implicit
well-formedness assumptions, which hold of every Record-mapper output: each
configured field with keywords is present in the record and holds a lowercase
string value (the code lowercases only the keyword, which on lowercase values
coincides with case-insensitive matching). -/
theorem C4_filter_retention (filters : List (String × List String))
    (recd : List (String × PyVal))
    (hpres : ∀ kw ∈ filters, kw.2 ≠ [] →
      ∃ v : String, recd.lookup kw.1 = some (.str v) ∧ pyLower v = v) :
    ∃ b : Bool, keepRecord filters recd = Except.ok b ∧
      (b = true ↔ (filters = [] ∨ ∃ kw ∈ filters, ∃ w ∈ kw.2, ∃ v : String,
        recd.lookup kw.1 = some (.str v) ∧ occursCI w v = true)) := by
  by_cases hf : filters.isEmpty
  · refine ⟨true, ?_, ?_⟩
    · rw [keepRecord, if_pos hf]
    · rw [List.isEmpty_iff] at hf
      simp [hf]
  · refine ⟨matchesB filters recd, ?_, ?_⟩
    · rw [keepRecord, if_neg hf]
      refine savePredicate_ok (fun kw hkw hne => ?_)
      rcases hpres kw hkw hne with ⟨v, hv, _⟩
      rw [hv]
      rfl
    · rw [matchesB_iff hpres]
      constructor
      · exact Or.inr
      · rintro (h | h)
        · rw [List.isEmpty_iff] at hf
          exact absurd h hf
        · exact h

/-- Claim C4 witness: the configured keyword `"Diffusion"` retains a record
whose abstract contains `"diffusion"`. -/
theorem C4_witness :
    ∃ b : Bool, keepRecord [("abstract", ["Diffusion"])]
        [("abstract", PyVal.str "a diffusion model")] = Except.ok b ∧
      (b = true ↔ ([("abstract", ["Diffusion"])]
          = ([] : List (String × List String))
        ∨ ∃ kw ∈ [("abstract", ["Diffusion"])], ∃ w ∈ kw.2, ∃ v : String,
            [("abstract", PyVal.str "a diffusion model")].lookup kw.1
              = some (.str v) ∧ occursCI w v = true)) :=
  C4_filter_retention [("abstract", ["Diffusion"])]
    [("abstract", PyVal.str "a diffusion model")]
    (fun kw hkw _ => by
      rcases List.mem_singleton.mp hkw with rfl
      exact ⟨"a diffusion model", rfl, by decide⟩)

/-- Claim C5 counterexample: a filter configuration naming the field
`"journal"`, absent from every record dict, makes the keyword loop raise
`KeyError` (the error outcome) instead of treating the field as
non-matching. -/
theorem C5_counterexample :
    savePredicate [("journal", ["nature"])] (Record.output metaX).toPairs
      = Except.error () := rfl

/-- Claim C5 (amended): evaluating the filter predicate on a record that
lacks a configured field with a non-empty keyword list raises `KeyError`
(the loop does not treat the absent field as non-matching; only a field
configured with an empty keyword list is skipped without a lookup). -/
theorem C5_amended_missing_field_raises (filters : List (String × List String))
    (recd : List (String × PyVal))
    (h : ∃ kw ∈ filters, kw.2 ≠ [] ∧ recd.lookup kw.1 = none) :
    savePredicate filters recd = Except.error () :=
  saveLoop_error h false

/-- Claim C5 witness: a concrete missing-field configuration raising. -/
theorem C5_witness :
    savePredicate [("journal", ["nature"])] [("title", PyVal.str "t")]
      = Except.error () :=
  C5_amended_missing_field_raises [("journal", ["nature"])]
    [("title", PyVal.str "t")]
    ⟨("journal", ["nature"]), List.mem_singleton.mpr rfl, by decide, rfl⟩

/-- Claim C10: processing one record appends it to the accumulator at most
once — the keyword matches are folded into the single `save_record` boolean
before the one `append` — so the result is either the unchanged accumulator
or the accumulator extended by exactly that record. -/
theorem C10_single_append (filters : List (String × List String))
    (ds : List RecDict) (r : Xml) (ds' : List RecDict)
    (h : processRecord filters ds r = Except.ok ds') :
    ds' = ds ∨ ∃ rec : RecDict, ds' = ds ++ [rec] := by
  rw [processRecord] at h
  split at h
  · exact Except.noConfusion h
  · split at h
    · exact Except.noConfusion h
    · split at h
      · exact Except.noConfusion h
      · injection h with h
        exact Or.inr ⟨_, h.symm⟩
      · injection h with h
        exact Or.inl h.symm

/-- Claim C10 witness: two configured pairs both match the record, yet it is
appended exactly once. -/
theorem C10_witness :
    processRecord multiFilters [] multiRecord
      = Except.ok [Record.output multiMeta]
    ∧ ([Record.output multiMeta] = ([] : List RecDict)
        ∨ ∃ rec : RecDict, [Record.output multiMeta] = [] ++ [rec]) :=
  ⟨rfl, C10_single_append multiFilters [] multiRecord [Record.output multiMeta]
    rfl⟩

/-- Claim C6: record construction is total in the embedding (every failure
is recovered inside the extractors), and the local defaults are: a missing
child or missing/empty text yields `""` for a scalar field; a missing
forename or keyname component yields the literal `"n/a"` inside the joined
`"<forenames> <keyname>"` author name; a failed affiliation lookup on any
author empties the affiliation sequence for the whole record. -/
theorem C6_record_defaults (xml : Xml) :
    (∀ ns tag, xml.find (ns ++ tag) = none → get_text xml ns tag = "")
    ∧ (∀ ns tag e, xml.find (ns ++ tag) = some e →
        (e.text = none ∨ e.text = some "") → get_text xml ns tag = "")
    ∧ (get_authors xml = (authorElems xml).map
        (fun a => get_name a "forenames" ++ " " ++ get_name a "keyname"))
    ∧ (∀ a attrName, (a.find (ARXIV ++ attrName) = none
        ∨ ∃ e, a.find (ARXIV ++ attrName) = some e ∧ e.text = none) →
        get_name a attrName = "n/a")
    ∧ (∀ a ∈ authorElems xml,
        (a.find (ARXIV ++ "affiliation")).bind Xml.text = none →
        get_affiliation xml = []) := by
  refine ⟨?_, ?_, get_authors_eq_map xml, ?_, ?_⟩
  · intro ns tag h
    rw [get_text, h]
  · intro ns tag e he ht
    rw [get_text, he]
    show (match e.text with
      | none => ""
      | some t => pyReplaceNl (pyLower (pyStrip t))) = ""
    rcases ht with ht | ht
    · rw [ht]
    · rw [ht]
      decide
  · intro a attrName h
    rw [get_name]
    rcases h with h | ⟨e, he, ht⟩
    · rw [h]
    · rw [he]
      show (match e.text with
        | none => "n/a"
        | some t => pyLower t) = "n/a"
      rw [ht]
  · intro a ha hnone
    rw [get_affiliation, mapM_eq_none_of_mem ha hnone]

/-- Claim C6 witness: concrete defaults — a missing `doi`, a missing
forename, a record-wide empty affiliation list. -/
theorem C6_witness :
    get_text metaX ARXIV "doi" = ""
    ∧ get_name author1 "forenames" = "n/a"
    ∧ get_affiliation authorsMeta = [] := by
  have h := C6_record_defaults authorsMeta
  refine ⟨(C6_record_defaults metaX).1 ARXIV "doi" rfl,
    h.2.2.2.1 author1 "forenames" (Or.inl rfl),
    h.2.2.2.2 author1 ?_ rfl⟩
  show author1 ∈ authorElems authorsMeta
  exact List.mem_cons_self _ _

/-- Claim C7 counterexample: the Record mapper's author names are not
normalized — a forename of `" Jane\nQ "` survives with its surrounding
whitespace and internal newline (only lowercased), so the claim fails on
the author name components. -/
theorem C7_counterexample :
    (Record.output authorsMeta).authors = ["n/a doe", " jane\nq  roe"]
    ∧ ¬ Normalized " jane\nq  roe" := by
  refine ⟨rfl, ?_⟩
  rintro ⟨⟨hhead, _⟩, _, _⟩
  exact absurd (hhead ' ' rfl) (by decide)

/-- Claim C7 (amended): every scalar field value produced by the Record
mapper is normalized (no surrounding whitespace, lowercase, no internal
newlines), while author name components and affiliation entries are only
lowercased — `Record._get_name` and `Record._get_affiliation` apply
`lower()` but neither `strip()` nor newline replacement. -/
theorem C7_amended_normalization (xml : Xml) :
    (∀ ns tag, Normalized (get_text xml ns tag))
    ∧ (∀ s ∈ get_authors xml, Lowercased s)
    ∧ (∀ s ∈ get_affiliation xml, Lowercased s) := by
  refine ⟨fun ns tag => normalized_get_text xml ns tag, ?_, ?_⟩
  · intro s hs
    rw [get_authors_eq_map] at hs
    rcases List.mem_map.mp hs with ⟨a, _, rfl⟩
    exact lowercased_append
      (lowercased_append (lowercased_get_name a "forenames") lowercased_space)
      (lowercased_get_name a "keyname")
  · intro s hs
    rw [get_affiliation] at hs
    cases hm : (authorElems xml).mapM
        (fun a => (a.find (ARXIV ++ "affiliation")).bind Xml.text) with
    | none =>
      rw [hm] at hs
      exact absurd hs (List.not_mem_nil s)
    | some texts =>
      rw [hm] at hs
      have hs2 : s ∈ texts.map pyLower := hs
      rcases List.mem_map.mp hs2 with ⟨t, _, rfl⟩
      exact lowercased_pyLower t

/-- Claim C7 witness: a concrete normalized scalar and lowercased author
name. -/
theorem C7_witness :
    Normalized (get_text authorsMeta ARXIV "title")
    ∧ Lowercased "n/a doe" := by
  have h := C7_amended_normalization authorsMeta
  refine ⟨h.1 ARXIV "title", h.2.1 "n/a doe" ?_⟩
  show "n/a doe" ∈ get_authors authorsMeta
  rw [get_authors_eq_map]
  exact List.mem_cons_self _ _

/-- Claim C8: the `"yesterday"` default for the date bounds.  Omitting both
bounds or only `date_from` succeeds with the defaults embedded in the query
URL, but supplying `date_from` while omitting `date_until` reads the local
variable `yesterday` that the skipped branch never bound, raising
`UnboundLocalError` — the code cannot construct a scraper for that
combination. -/
theorem C8_init_dates :
    Scraper.init "2026-10-11" "cs" (some "2024-01-01") none 30 300 []
      = Except.error ()
    ∧ Scraper.init "2026-10-11" "cs" none none 30 300 []
        = Except.ok
            { cat := "cs", t := 30, timeout := 300,
              f := "2026-10-11", u := "2026-10-11",
              url := initialUrl "2026-10-11" "2026-10-11" "cs", filters := [] }
    ∧ Scraper.init "2026-10-11" "cs" none (some "2024-02-02") 30 300 []
        = Except.ok
            { cat := "cs", t := 30, timeout := 300,
              f := "2026-10-11", u := "2024-02-02",
              url := initialUrl "2026-10-11" "2024-02-02" "cs", filters := [] }
    ∧ Scraper.init "2026-10-11" "cs" (some "2024-01-01") (some "2024-02-02")
          30 300 []
        = Except.ok
            { cat := "cs", t := 30, timeout := 300,
              f := "2024-01-01", u := "2024-02-02",
              url := initialUrl "2024-01-01" "2024-02-02" "cs", filters := [] } :=
  ⟨rfl, rfl, rfl, rfl⟩

set_option maxRecDepth 40000 in
/-- Claim C9: feeding the mapper's output for a source title
`"A Study of X"` through the HTML renderer yields a fragment whose anchor's
visible text is exactly the lowercased title, emitted unchanged by the
renderer. -/
theorem C9_roundtrip :
    (Record.output metaX).title = "a study of x"
    ∧ pyInStr "target=\x27_blank\x27>a study of x</a>"
        (generate_html [Record.output metaX] "2026-10-11") = true := by
  refine ⟨rfl, ?_⟩
  decide

end ArxivScraper
